import Mathlib

/-!
Shallow embedding of the WhatsApp pairing backend (src/backend/src/app.js).

The backend keeps an in-memory registry of pairing sessions
(`activeConnections`), a per-session storage directory under `sessions/`
(holding at most a `creds.json` credential artifact), a Baileys socket per
session whose `connection.update` events mutate the registry entry, and a
`cleanupSession` routine invoked after a credential download and by an
hourly expiry sweep.

The model:
- the registry is an association list `SessionId × SessionRecord`;
- the filesystem is two lists: `dirs` (existing session directories) and
  `creds` (sessions whose directory contains `creds.json`, with content);
- `rmFails` is a fault oracle: the ids for which `fs.rmSync` raises
  (permission errors etc.); `fs.rmSync` on an id not in `rmFails` succeeds;
- `endedSocks` records the sockets on which `sock.end()` has been called
  (socket termination is effect-idempotent, so it is modelled as a set);
- the external Baileys behaviour during session creation is an oracle
  `AdapterBehavior`: whether the pre-registration steps
  (`useMultiFileAuthState` / `fetchLatestBaileysVersion` / `makeWASocket`)
  throw, and what `requestPairingCode` returns for the digit-stripped
  phone number;
- a `connection.update` callback that dereferences a registry entry that
  no longer exists (`activeConnections[sessionId].qr = qr` on `undefined`)
  is a fault, modelled as `handleUpdate` returning `none`.
-/

namespace PairingApp

abbrev SessionId := String

/-- Session status values used by the backend: the record is created with
`status: 'connecting'`; the connection.update listener sets `'connected'`
on an open event and `'failed'` on a loggedOut close. -/
inductive Status
  | connecting
  | connected
  | failed
deriving DecidableEq

/-- One entry of `activeConnections`: phone number, status, creation time
(milliseconds), and the most recent QR payload if any. The socket itself
is tracked via `World.endedSocks`. -/
structure SessionRecord where
  phoneNumber : String
  status : Status
  createdAt : Int
  qr : Option String
deriving DecidableEq

/-- The whole mutable state of the backend process plus the filesystem. -/
structure World where
  reg : List (SessionId × SessionRecord)
  dirs : List SessionId
  creds : List (SessionId × String)
  rmFails : List SessionId
  endedSocks : List SessionId
deriving DecidableEq

/-- Lookup in an association list keyed by session id
(JS `activeConnections[sessionId]`). -/
def lookupId {α : Type} (sid : SessionId) : List (SessionId × α) → Option α
  | [] => none
  | (k, v) :: t => if k = sid then some v else lookupId sid t

/-- Remove all entries with the given key
(JS `delete activeConnections[sessionId]`). -/
def removeId {α : Type} (sid : SessionId) : List (SessionId × α) → List (SessionId × α)
  | [] => []
  | (k, v) :: t => if k = sid then removeId sid t else (k, v) :: removeId sid t

/-- Key-overwriting insert (JS `activeConnections[sessionId] = record`). -/
def insertReg {α : Type} (sid : SessionId) (v : α) (l : List (SessionId × α)) :
    List (SessionId × α) :=
  (sid, v) :: removeId sid l

/-- Update the record stored at a key, in place
(JS `activeConnections[sessionId].field = value`). -/
def updateId {α : Type} (sid : SessionId) (f : α → α) :
    List (SessionId × α) → List (SessionId × α)
  | [] => []
  | (k, v) :: t =>
    if k = sid then (k, f v) :: updateId sid f t else (k, v) :: updateId sid f t

/-- Remove an element from a list of ids (directory deletion). -/
def removeElem (sid : SessionId) : List SessionId → List SessionId
  | [] => []
  | k :: t => if k = sid then removeElem sid t else k :: removeElem sid t

/-- Set-like insert of an id (recording that a socket has been ended). -/
def insertElem (sid : SessionId) (l : List SessionId) : List SessionId :=
  if sid ∈ l then l else sid :: l

/-- The `connection` field of a Baileys connection.update payload, as far
as the listener inspects it: it compares against `'close'` and `'open'`
and ignores every other value. -/
inductive Conn
  | close
  | openC
  | otherC
deriving DecidableEq

/-- A `connection.update` event payload as consumed by the listener:
the optional `connection` value, whether
`lastDisconnect?.error?.output?.statusCode === DisconnectReason.loggedOut`,
and the optional `qr` payload. -/
structure ConnUpdate where
  connection : Option Conn
  loggedOut : Bool
  qr : Option String
deriving DecidableEq

/-- First half of the connection.update listener (app.js lines 78-82):
if a `qr` payload is present, store it on the registry entry. Dereferencing
a missing entry is a fault (`none`). -/
def qrStep (sid : SessionId) (u : ConnUpdate) (w : World) : Option World :=
  match u.qr with
  | none => some w
  | some q =>
    match lookupId sid w.reg with
    | none => none
    | some _ => some { w with reg := updateId sid (fun r => { r with qr := some q }) w.reg }

/-- Second half of the connection.update listener (app.js lines 84-94):
on `close` with a loggedOut disconnect reason set status `failed` (any other
close only logs); on `open` set status `connected`. Dereferencing a missing
entry is a fault (`none`). -/
def connStep (sid : SessionId) (u : ConnUpdate) (w : World) : Option World :=
  match u.connection with
  | some .close =>
    if u.loggedOut then
      match lookupId sid w.reg with
      | none => none
      | some _ =>
        some { w with reg := updateId sid (fun r => { r with status := .failed }) w.reg }
    else some w
  | some .openC =>
    match lookupId sid w.reg with
    | none => none
    | some _ =>
      some { w with reg := updateId sid (fun r => { r with status := .connected }) w.reg }
  | _ => some w

/-- The whole `sock.ev.on('connection.update')` listener body
(app.js lines 75-95). -/
def handleUpdate (sid : SessionId) (u : ConnUpdate) (w : World) : Option World :=
  (qrStep sid u w).bind (connStep sid u)

/-- Oracle for the external Baileys calls made during session creation:
`failBefore` = the auth-state / version-fetch / socket construction steps
throw (before the record is registered); `pairingCode` = the result of
`sock.requestPairingCode` on the digit-stripped phone number. -/
structure AdapterBehavior where
  failBefore : Bool
  pairingCode : String → Except Unit String

/-- `phoneNumber.replace(/[^\d]/g, '')` (app.js line 101). -/
def stripNonDigits (s : String) : String :=
  ⟨s.data.filter Char.isDigit⟩

/-- Result of the generate-pair-code endpoint: 400 when the phone number is
missing, 500 when the try block throws, 200 with code and session id. -/
inductive CreateResult
  | badRequest
  | serverError
  | ok (code : String) (sessionId : SessionId)
deriving DecidableEq

/-- The POST /api/generate-pair-code handler (app.js lines 39-114), with
the fresh uuid passed as `sid`. It validates the phone number, creates the
session directory if it does not already exist, runs the pre-registration
adapter steps, stores the record with status `connecting`, then requests
the pairing code. The catch block (lines 110-113) only answers 500: it
removes nothing. -/
def createSession (sid : SessionId) (phone : String) (beh : AdapterBehavior)
    (now : Int) (w : World) : CreateResult × World :=
  if phone = "" then (.badRequest, w)
  else
    let w1 := if sid ∈ w.dirs then w else { w with dirs := sid :: w.dirs }
    if beh.failBefore then (.serverError, w1)
    else
      let w2 := { w1 with
        reg := insertReg sid ⟨phone, .connecting, now, none⟩ w1.reg }
      match beh.pairingCode (stripNonDigits phone) with
      | .error _ => (.serverError, w2)
      | .ok code => (.ok code sid, w2)

/-- Result of GET /api/check-status/:sessionId. -/
inductive StatusResult
  | notFound
  | ok (status : Status) (qr : Option String)
deriving DecidableEq

/-- The GET /api/check-status/:sessionId handler (app.js lines 117-129). -/
def checkStatus (sid : SessionId) (w : World) : StatusResult :=
  match lookupId sid w.reg with
  | none => .notFound
  | some r => .ok r.status r.qr

/-- An HTTP error response: status code and error message. -/
structure ApiError where
  httpStatus : Nat
  message : String
deriving DecidableEq

/-- Result of GET /api/get-qr/:sessionId. -/
inductive QrResult
  | err (e : ApiError)
  | ok (qr : String)
deriving DecidableEq

/-- The GET /api/get-qr/:sessionId handler (app.js lines 132-147): 404 with
message "Session not found" for an unknown id, 404 with message
"QR code not available yet" when the session has no QR payload yet. -/
def getQr (sid : SessionId) (w : World) : QrResult :=
  match lookupId sid w.reg with
  | none => .err ⟨404, "Session not found"⟩
  | some r =>
    match r.qr with
    | none => .err ⟨404, "QR code not available yet"⟩
    | some q => .ok q

/-- Result of GET /api/download-creds/:sessionId. -/
inductive DownloadResult
  | errSessionNotFound
  | errNotConnected
  | errCredsNotFound
  | ok (body : String)
deriving DecidableEq

/-- The GET /api/download-creds/:sessionId handler (app.js lines 150-179).
The returned Bool records whether the deferred `setTimeout(cleanupSession)`
was scheduled; the world itself is not modified by the handler (the cleanup
runs later, as its own step). -/
def downloadCreds (sid : SessionId) (w : World) : DownloadResult × World × Bool :=
  match lookupId sid w.reg with
  | none => (.errSessionNotFound, w, false)
  | some r =>
    if r.status = .connected then
      match lookupId sid w.creds with
      | none => (.errCredsNotFound, w, false)
      | some body => (.ok body, w, true)
    else (.errNotConnected, w, false)

/-- The `if (connection && connection.sock) connection.sock.end()` step of
`cleanupSession` (app.js lines 184-189). -/
def endSockW (sid : SessionId) (w : World) : World :=
  match lookupId sid w.reg with
  | some _ => { w with endedSocks := insertElem sid w.endedSocks }
  | none => w

/-- The body of `cleanupSession`'s try block (app.js lines 183-200): end the
socket if the record exists, remove the session directory if it exists
(`fs.rmSync` may throw, per the `rmFails` oracle — the Bool records whether
it threw, in which case the `delete activeConnections[sessionId]` line is
never reached), then delete the registry entry. -/
def cleanupTry (sid : SessionId) (w : World) : World × Bool :=
  let w1 := endSockW sid w
  if sid ∈ w1.dirs then
    if sid ∈ w1.rmFails then (w1, true)
    else
      ({ w1 with
          dirs := removeElem sid w1.dirs,
          creds := removeId sid w1.creds,
          reg := removeId sid w1.reg }, false)
  else ({ w1 with reg := removeId sid w1.reg }, false)

/-- `cleanupSession` (app.js lines 182-204): the try body with every thrown
error swallowed by the catch block, so the caller always gets a normal
return and the state reached before the throw. -/
def cleanupSession (sid : SessionId) (w : World) : World :=
  (cleanupTry sid w).1

/-- The sweep's age test (app.js lines 211-214):
`(now - createdAt) / 60000 > 120` computed over the reals. -/
def tooOld (now createdAt : Int) : Bool :=
  decide ((((now - createdAt : Int) : ℚ) / 60000) > 120)

/-- One iteration of the sweep's forEach body (app.js lines 209-217). -/
def sweepStepF (now : Int) (acc : World) (sid : SessionId) : World :=
  match lookupId sid acc.reg with
  | none => acc
  | some r => if tooOld now r.createdAt then cleanupSession sid acc else acc

/-- One firing of the hourly expiry sweep (app.js lines 207-218):
iterate over a snapshot of the registry's keys, cleaning up every session
older than 120 minutes. -/
def sweepOnce (now : Int) (w : World) : World :=
  (w.reg.map Prod.fst).foldl (sweepStepF now) w

/-- The status of a session as recorded in the registry, if it exists. -/
def statusOf (sid : SessionId) (w : World) : Option Status :=
  (lookupId sid w.reg).map (fun r => r.status)

/-- The status a poller observes through the check-status endpoint. -/
def statusView (sid : SessionId) (w : World) : Option Status :=
  match checkStatus sid w with
  | .notFound => none
  | .ok st _ => some st

/-- One atomic step of the system: a creation request, a delivered
connection.update event (a faulting delivery leaves the state unchanged,
since the fault happens at the very first dereference), a cleanup (either
the post-download timer or direct), a sweep firing, or one of the read-only
endpoints. -/
inductive Step
  | create (sid : SessionId) (phone : String) (beh : AdapterBehavior) (now : Int)
  | event (sid : SessionId) (u : ConnUpdate)
  | cleanup (sid : SessionId)
  | sweep (now : Int)
  | poll (sid : SessionId)
  | qrReq (sid : SessionId)
  | download (sid : SessionId)

/-- Effect of one step on the world. -/
def runStep (s : Step) (w : World) : World :=
  match s with
  | .create sid phone beh now => (createSession sid phone beh now w).2
  | .event sid u => (handleUpdate sid u w).getD w
  | .cleanup sid => cleanupSession sid w
  | .sweep now => sweepOnce now w
  | .poll _ => w
  | .qrReq _ => w
  | .download sid => (downloadCreds sid w).2.1

/-- Effect of a sequence of steps. -/
def runSteps (steps : List Step) (w : World) : World :=
  steps.foldl (fun acc s => runStep s acc) w

/-- The empty initial world. -/
def emptyW : World := ⟨[], [], [], [], []⟩

/-- A world holding one freshly created session "s" (status `connecting`,
created at time 0) with its storage directory present. -/
def wBasic : World := ⟨[("s", ⟨"p", .connecting, 0, none⟩)], ["s"], [], [], []⟩

/-- Like `wBasic`, but removing the directory of "s" raises a filesystem
error. -/
def wRmFail : World := ⟨[("s", ⟨"p", .connecting, 0, none⟩)], ["s"], [], ["s"], []⟩

/-- A world holding one connected session "s" whose directory contains a
persisted credential artifact. -/
def wConnected : World :=
  ⟨[("s", ⟨"p", .connected, 0, none⟩)], ["s"], [("s", "CREDS")], [], []⟩

/-- Adapter oracle: the pre-registration steps succeed but
`requestPairingCode` throws. -/
def behPCfail : AdapterBehavior := ⟨false, fun _ => .error ()⟩

/-- Adapter oracle: everything succeeds and the issued pairing code is
"ABCD-EFGH". -/
def behOk : AdapterBehavior := ⟨false, fun _ => .ok "ABCD-EFGH"⟩

/-- A world in which the storage directory for id "s" already exists but no
session is registered. -/
def wDirOnly : World := ⟨[], ["s"], [], [], []⟩

/-- A session fully reclaimed: no registry entry, no directory, socket
ended. -/
def cleanedOut (sid : SessionId) (w : World) : Prop :=
  lookupId sid w.reg = none ∧ sid ∉ w.dirs ∧ sid ∈ w.endedSocks

/-- Whether a download result is the success case. -/
def isOk : DownloadResult → Bool
  | .ok _ => true
  | _ => false

/-! ### Association-list and id-list lemmas -/

theorem lookupId_removeId_self {α : Type} (sid : SessionId) (l : List (SessionId × α)) :
    lookupId sid (removeId sid l) = none := by
  induction l with
  | nil => rfl
  | cons p t ih =>
    obtain ⟨k, v⟩ := p
    by_cases hk : k = sid
    · simp [removeId, hk, ih]
    · simp [removeId, lookupId, hk, ih]

theorem lookupId_removeId_ne {α : Type} {k sid : SessionId} (h : k ≠ sid)
    (l : List (SessionId × α)) :
    lookupId k (removeId sid l) = lookupId k l := by
  induction l with
  | nil => rfl
  | cons p t ih =>
    obtain ⟨k0, v⟩ := p
    by_cases h0 : k0 = sid
    · subst h0
      simp [removeId, lookupId, Ne.symm h, ih]
    · by_cases h1 : k0 = k
      · subst h1
        simp [removeId, lookupId, h0]
      · simp [removeId, lookupId, h0, h1, ih]

theorem lookupId_removeId_eq_some {α : Type} {k sid : SessionId} {v : α}
    {l : List (SessionId × α)} (h : lookupId k (removeId sid l) = some v) :
    lookupId k l = some v := by
  by_cases hk : k = sid
  · rw [hk, lookupId_removeId_self] at h
    exact absurd h (by simp)
  · rwa [lookupId_removeId_ne hk] at h

theorem removeId_removeId {α : Type} (sid : SessionId) (l : List (SessionId × α)) :
    removeId sid (removeId sid l) = removeId sid l := by
  induction l with
  | nil => rfl
  | cons p t ih =>
    obtain ⟨k, v⟩ := p
    by_cases hk : k = sid
    · simp [removeId, hk, ih]
    · simp [removeId, hk, ih]

theorem lookupId_insertReg_self {α : Type} (sid : SessionId) (v : α)
    (l : List (SessionId × α)) :
    lookupId sid (insertReg sid v l) = some v := by
  simp [insertReg, lookupId]

theorem lookupId_insertReg_ne {α : Type} {k sid : SessionId} (h : k ≠ sid) (v : α)
    (l : List (SessionId × α)) :
    lookupId k (insertReg sid v l) = lookupId k l := by
  have hs : sid ≠ k := fun hc => h hc.symm
  simp [insertReg, lookupId, hs, lookupId_removeId_ne h]

theorem lookupId_updateId_self {α : Type} (sid : SessionId) (f : α → α)
    (l : List (SessionId × α)) :
    lookupId sid (updateId sid f l) = (lookupId sid l).map f := by
  induction l with
  | nil => rfl
  | cons p t ih =>
    obtain ⟨k, v⟩ := p
    by_cases hk : k = sid
    · simp [updateId, lookupId, hk]
    · simp [updateId, lookupId, hk, ih]

theorem lookupId_updateId_ne {α : Type} {k sid : SessionId} (h : k ≠ sid) (f : α → α)
    (l : List (SessionId × α)) :
    lookupId k (updateId sid f l) = lookupId k l := by
  induction l with
  | nil => rfl
  | cons p t ih =>
    obtain ⟨k0, v⟩ := p
    by_cases h0 : k0 = sid
    · subst h0
      simp [updateId, lookupId, Ne.symm h, ih]
    · by_cases h1 : k0 = k
      · subst h1
        simp [updateId, lookupId, h0]
      · simp [updateId, lookupId, h0, h1, ih]

theorem not_mem_removeElem_self (sid : SessionId) (l : List SessionId) :
    sid ∉ removeElem sid l := by
  induction l with
  | nil => simp [removeElem]
  | cons k t ih =>
    by_cases hk : k = sid
    · simpa [removeElem, hk] using ih
    · intro hmem
      simp only [removeElem, if_neg hk, List.mem_cons] at hmem
      rcases hmem with h | h
      · exact hk h.symm
      · exact ih h

theorem mem_of_mem_removeElem {k sid : SessionId} {l : List SessionId}
    (h : k ∈ removeElem sid l) : k ∈ l := by
  induction l with
  | nil => simp [removeElem] at h
  | cons k0 t ih =>
    by_cases h0 : k0 = sid
    · simp only [removeElem, if_pos h0] at h
      exact List.mem_cons_of_mem _ (ih h)
    · simp only [removeElem, if_neg h0, List.mem_cons] at h
      rcases h with h | h
      · exact h ▸ List.mem_cons_self _ _
      · exact List.mem_cons_of_mem _ (ih h)

theorem removeElem_removeElem (sid : SessionId) (l : List SessionId) :
    removeElem sid (removeElem sid l) = removeElem sid l := by
  induction l with
  | nil => rfl
  | cons k t ih =>
    by_cases hk : k = sid
    · simp [removeElem, hk, ih]
    · simp [removeElem, hk, ih]

theorem mem_insertElem_self (sid : SessionId) (l : List SessionId) :
    sid ∈ insertElem sid l := by
  by_cases h : sid ∈ l
  · rw [insertElem, if_pos h]
    exact h
  · simp [insertElem, h]

theorem mem_insertElem_of_mem {k : SessionId} (sid : SessionId) {l : List SessionId}
    (h : k ∈ l) : k ∈ insertElem sid l := by
  by_cases hm : sid ∈ l
  · simpa [insertElem, hm] using h
  · simp [insertElem, hm]
    exact Or.inr h

theorem lookupId_some_mem_keys {α : Type} {sid : SessionId} {l : List (SessionId × α)}
    {v : α} (h : lookupId sid l = some v) : sid ∈ l.map Prod.fst := by
  induction l with
  | nil => simp [lookupId] at h
  | cons p t ih =>
    obtain ⟨k, v0⟩ := p
    by_cases hk : k = sid
    · simp [hk]
    · simp only [lookupId, if_neg hk] at h
      simpa using Or.inr (ih h)

theorem removeId_of_lookup_none {α : Type} {sid : SessionId} {l : List (SessionId × α)}
    (h : lookupId sid l = none) : removeId sid l = l := by
  induction l with
  | nil => rfl
  | cons p t ih =>
    obtain ⟨k, v⟩ := p
    by_cases hk : k = sid
    · simp [lookupId, hk] at h
    · simp only [lookupId, if_neg hk] at h
      simp [removeId, hk, ih h]

/-! ### Lemmas about cleanupSession -/

theorem endSockW_reg (sid : SessionId) (w : World) : (endSockW sid w).reg = w.reg := by
  unfold endSockW
  cases lookupId sid w.reg <;> rfl

theorem endSockW_dirs (sid : SessionId) (w : World) : (endSockW sid w).dirs = w.dirs := by
  unfold endSockW
  cases lookupId sid w.reg <;> rfl

theorem endSockW_creds (sid : SessionId) (w : World) : (endSockW sid w).creds = w.creds := by
  unfold endSockW
  cases lookupId sid w.reg <;> rfl

theorem endSockW_rmFails (sid : SessionId) (w : World) :
    (endSockW sid w).rmFails = w.rmFails := by
  unfold endSockW
  cases lookupId sid w.reg <;> rfl

theorem endSockW_ended_mono {k : SessionId} (sid : SessionId) (w : World)
    (h : k ∈ w.endedSocks) : k ∈ (endSockW sid w).endedSocks := by
  unfold endSockW
  cases lookupId sid w.reg with
  | none => exact h
  | some r => exact mem_insertElem_of_mem sid h

theorem endSockW_ended_self {sid : SessionId} {w : World} {r : SessionRecord}
    (h : lookupId sid w.reg = some r) : sid ∈ (endSockW sid w).endedSocks := by
  unfold endSockW
  rw [h]
  exact mem_insertElem_self sid _

theorem endSockW_of_none {sid : SessionId} {w : World}
    (h : lookupId sid w.reg = none) : endSockW sid w = w := by
  unfold endSockW
  rw [h]

theorem cleanupSession_rmFails (sid : SessionId) (w : World) :
    (cleanupSession sid w).rmFails = w.rmFails := by
  simp only [cleanupSession, cleanupTry]
  split_ifs <;> simp [endSockW_rmFails]

theorem cleanupSession_lookup_self {sid : SessionId} {w : World} (hrm : sid ∉ w.rmFails) :
    lookupId sid (cleanupSession sid w).reg = none := by
  simp only [cleanupSession, cleanupTry]
  split_ifs with h1 h2
  · exact absurd (by rwa [endSockW_rmFails] at h2) hrm
  · exact lookupId_removeId_self sid _
  · exact lookupId_removeId_self sid _

theorem cleanupSession_lookup_of_some {k sid : SessionId} {w : World} {r : SessionRecord}
    (h : lookupId k (cleanupSession sid w).reg = some r) : lookupId k w.reg = some r := by
  simp only [cleanupSession, cleanupTry] at h
  split_ifs at h
  · rwa [endSockW_reg] at h
  · have := lookupId_removeId_eq_some h
    rwa [endSockW_reg] at this
  · have := lookupId_removeId_eq_some h
    rwa [endSockW_reg] at this

theorem cleanupSession_lookup_ne {k sid : SessionId} (hk : k ≠ sid) (w : World) :
    lookupId k (cleanupSession sid w).reg = lookupId k w.reg := by
  simp only [cleanupSession, cleanupTry]
  split_ifs <;> simp [endSockW_reg, lookupId_removeId_ne hk]

theorem cleanupSession_dirs_sub {k sid : SessionId} {w : World}
    (h : k ∈ (cleanupSession sid w).dirs) : k ∈ w.dirs := by
  simp only [cleanupSession, cleanupTry] at h
  split_ifs at h
  · rwa [endSockW_dirs] at h
  · have := mem_of_mem_removeElem h
    rwa [endSockW_dirs] at this
  · rwa [endSockW_dirs] at h

theorem cleanupSession_not_dirs {sid : SessionId} {w : World} (hrm : sid ∉ w.rmFails) :
    sid ∉ (cleanupSession sid w).dirs := by
  simp only [cleanupSession, cleanupTry]
  split_ifs with h1 h2
  · exact absurd (by rwa [endSockW_rmFails] at h2) hrm
  · exact not_mem_removeElem_self sid _
  · intro hc
    rw [endSockW_dirs] at hc
    rw [endSockW_dirs] at h1
    exact h1 hc

theorem cleanupSession_ended_mono {k : SessionId} (sid : SessionId) {w : World}
    (h : k ∈ w.endedSocks) : k ∈ (cleanupSession sid w).endedSocks := by
  simp only [cleanupSession, cleanupTry]
  split_ifs <;> exact endSockW_ended_mono sid w h

theorem cleanupSession_ended_self {sid : SessionId} {w : World} {r : SessionRecord}
    (h : lookupId sid w.reg = some r) : sid ∈ (cleanupSession sid w).endedSocks := by
  simp only [cleanupSession, cleanupTry]
  split_ifs <;> exact endSockW_ended_self h

theorem cleanupSession_of_absent {sid : SessionId} {w : World}
    (hn : lookupId sid w.reg = none) (hd : sid ∉ w.dirs) :
    cleanupSession sid w = w := by
  simp only [cleanupSession, cleanupTry, endSockW_of_none hn]
  rw [if_neg hd]
  simp [removeId_of_lookup_none hn]

theorem cleanupSession_idem (sid : SessionId) {w : World} (hrm : sid ∉ w.rmFails) :
    cleanupSession sid (cleanupSession sid w) = cleanupSession sid w :=
  cleanupSession_of_absent (cleanupSession_lookup_self hrm) (cleanupSession_not_dirs hrm)

theorem cleanupTry_noThrow {sid : SessionId} {w : World} (hrm : sid ∉ w.rmFails) :
    (cleanupTry sid w).2 = false := by
  simp only [cleanupTry]
  split_ifs with h1 h2
  · exact absurd (by rwa [endSockW_rmFails] at h2) hrm
  · rfl
  · rfl

/-- A connection.update delivery for a session with no registry entry
faults (TypeError on `activeConnections[sessionId]` being undefined)
whenever it carries a qr payload, an open, or a loggedOut close. -/
theorem handleUpdate_fault {sid : SessionId} {w : World} {u : ConnUpdate}
    (habsent : lookupId sid w.reg = none)
    (htrig : u.qr ≠ none ∨ u.connection = some .openC ∨
      (u.connection = some .close ∧ u.loggedOut = true)) :
    handleUpdate sid u w = none := by
  rcases hq : u.qr with _ | q
  · have hqs : qrStep sid u w = some w := by simp [qrStep, hq]
    rcases htrig with ht | ht | ht
    · exact absurd hq ht
    · simp [handleUpdate, hqs, connStep, ht, habsent]
    · simp [handleUpdate, hqs, connStep, ht.1, ht.2, habsent]
  · simp [handleUpdate, qrStep, hq, habsent]

/-! ### Lemmas about the expiry sweep -/

theorem cleanedOut_preserved (sid sid' : SessionId) {w : World}
    (h : cleanedOut sid w) : cleanedOut sid (cleanupSession sid' w) := by
  obtain ⟨h1, h2, h3⟩ := h
  refine ⟨?_, ?_, cleanupSession_ended_mono sid' h3⟩
  · rcases hls : lookupId sid (cleanupSession sid' w).reg with _ | r
    · rfl
    · have := cleanupSession_lookup_of_some hls
      rw [h1] at this
      exact Option.noConfusion this
  · intro hc
    exact h2 (cleanupSession_dirs_sub hc)

theorem sweepStepF_cleanedOut (now : Int) (sid k : SessionId) (acc : World)
    (h : cleanedOut sid acc) : cleanedOut sid (sweepStepF now acc k) := by
  rcases hlk : lookupId k acc.reg with _ | rk
  · simpa [sweepStepF, hlk] using h
  · by_cases ho : tooOld now rk.createdAt
    · simp only [sweepStepF, hlk, if_pos ho]
      exact cleanedOut_preserved sid k h
    · simpa [sweepStepF, hlk, if_neg ho] using h

theorem sweepFold_cleanedOut (now : Int) (sid : SessionId) (keys : List SessionId) :
    ∀ acc : World, cleanedOut sid acc →
      cleanedOut sid (keys.foldl (sweepStepF now) acc) := by
  induction keys with
  | nil => exact fun acc h => h
  | cons k t ih =>
    intro acc h
    rw [List.foldl_cons]
    exact ih _ (sweepStepF_cleanedOut now sid k acc h)

theorem sweepFold_cleans (now : Int) (sid : SessionId) (r : SessionRecord)
    (keys : List SessionId) :
    ∀ acc : World, sid ∈ keys → lookupId sid acc.reg = some r →
      tooOld now r.createdAt = true → sid ∉ acc.rmFails →
      cleanedOut sid (keys.foldl (sweepStepF now) acc) := by
  induction keys with
  | nil =>
    intro acc hmem _ _ _
    exact absurd hmem (List.not_mem_nil sid)
  | cons k t ih =>
    intro acc hmem hlook hold hrm
    rw [List.foldl_cons]
    by_cases hk : k = sid
    · subst hk
      have hstep : sweepStepF now acc k = cleanupSession k acc := by
        simp [sweepStepF, hlook, hold]
      rw [hstep]
      exact sweepFold_cleanedOut now k t _
        ⟨cleanupSession_lookup_self hrm, cleanupSession_not_dirs hrm,
         cleanupSession_ended_self hlook⟩
    · have hmem' : sid ∈ t := by
        rcases List.mem_cons.mp hmem with h | h
        · exact absurd h.symm hk
        · exact h
      have hlook' : lookupId sid (sweepStepF now acc k).reg = some r := by
        rcases hlk : lookupId k acc.reg with _ | rk
        · simpa [sweepStepF, hlk] using hlook
        · by_cases ho : tooOld now rk.createdAt
          · simp only [sweepStepF, hlk, if_pos ho]
            rw [cleanupSession_lookup_ne (fun hc => hk hc.symm)]
            exact hlook
          · simpa [sweepStepF, hlk, if_neg ho] using hlook
      have hrm' : sid ∉ (sweepStepF now acc k).rmFails := by
        rcases hlk : lookupId k acc.reg with _ | rk
        · simpa [sweepStepF, hlk] using hrm
        · by_cases ho : tooOld now rk.createdAt
          · simp only [sweepStepF, hlk, if_pos ho]
            rw [cleanupSession_rmFails]
            exact hrm
          · simpa [sweepStepF, hlk, if_neg ho] using hrm
      exact ih _ hmem' hlook' hold hrm'

/-! ### Claim C3 -/

/-- C3 counterexample: on the concrete world holding session "s",
`cleanupSession "s"` removes the registry record, and a late
connection.update event (an `open`) delivered afterwards faults — the
callback dereferences the already-removed record — contradicting the claim
that teardown unregisters the listeners so that a late event never causes a
fault. -/
theorem c3_counterexample :
    lookupId "s" (cleanupSession "s"
      ⟨[("s", ⟨"p", .connecting, 0, none⟩)], ["s"], [], [], []⟩).reg = none ∧
    handleUpdate "s" ⟨some .openC, false, none⟩
      (cleanupSession "s"
        ⟨[("s", ⟨"p", .connecting, 0, none⟩)], ["s"], [], [], []⟩) = none := by
  decide

/-- C3 (amended): cleanupSession does not unregister the connection-update
listener; after a teardown whose directory removal succeeds, the registry
record is gone, and a late adapter event that carries a qr payload, an
open, or a loggedOut close dereferences the missing record and faults. -/
theorem c3_amended (w : World) (sid : SessionId) (u : ConnUpdate)
    (hrm : sid ∉ w.rmFails)
    (htrig : u.qr ≠ none ∨ u.connection = some .openC ∨
      (u.connection = some .close ∧ u.loggedOut = true)) :
    lookupId sid (cleanupSession sid w).reg = none ∧
    handleUpdate sid u (cleanupSession sid w) = none :=
  ⟨cleanupSession_lookup_self hrm,
   handleUpdate_fault (cleanupSession_lookup_self hrm) htrig⟩

/-- C3 witness: the amended statement at session "s" of `wBasic` and a late
loggedOut close event. -/
theorem c3_witness :
    lookupId "s" (cleanupSession "s" wBasic).reg = none ∧
    handleUpdate "s" ⟨some .close, true, none⟩ (cleanupSession "s" wBasic) = none :=
  c3_amended wBasic "s" ⟨some .close, true, none⟩ (by decide)
    (Or.inr (Or.inr ⟨rfl, rfl⟩))

/-! ### Claim C4 -/

/-- C4 counterexample: in the concrete world where removing the directory
of session "s" raises, `cleanupSession "s"` leaves the registry entry in
place — the claim that the entry is removed despite the destroy failure is
false on the code, because `delete activeConnections[sessionId]` sits after
`fs.rmSync` inside the same try block. -/
theorem c4_counterexample :
    lookupId "s" (cleanupSession "s"
      ⟨[("s", ⟨"p", .connecting, 0, none⟩)], ["s"], [], ["s"], []⟩).reg =
      some ⟨"p", .connecting, 0, none⟩ := by
  decide

/-- C4 (amended): if destroying the storage directory fails during
teardown, the raised error is swallowed by the catch block (the caller
still gets a normal return), but the registry removal is skipped: the
session's entry — and its directory — remain. -/
theorem c4_amended (w : World) (sid : SessionId) (hdir : sid ∈ w.dirs)
    (hrm : sid ∈ w.rmFails) :
    (cleanupTry sid w).2 = true ∧
    lookupId sid (cleanupSession sid w).reg = lookupId sid w.reg ∧
    sid ∈ (cleanupSession sid w).dirs := by
  have hd1 : sid ∈ (endSockW sid w).dirs := by rwa [endSockW_dirs]
  have hr1 : sid ∈ (endSockW sid w).rmFails := by rwa [endSockW_rmFails]
  refine ⟨?_, ?_, ?_⟩
  · simp only [cleanupTry]
    rw [if_pos hd1, if_pos hr1]
  · simp only [cleanupSession, cleanupTry]
    rw [if_pos hd1, if_pos hr1]
    show lookupId sid (endSockW sid w).reg = lookupId sid w.reg
    rw [endSockW_reg]
  · simp only [cleanupSession, cleanupTry]
    rw [if_pos hd1, if_pos hr1]
    exact hd1

/-- C4 witness: the amended statement at session "s" of `wRmFail`. -/
theorem c4_witness :
    (cleanupTry "s" wRmFail).2 = true ∧
    lookupId "s" (cleanupSession "s" wRmFail).reg = lookupId "s" wRmFail.reg ∧
    "s" ∈ (cleanupSession "s" wRmFail).dirs :=
  c4_amended wRmFail "s" (by decide) (by decide)

/-! ### Claim C5 -/

/-- C5: teardown is idempotent. When the directory removal does not raise,
running `cleanupSession` twice gives exactly the state of running it once,
that state has the session's directory and registry entry absent, and
neither call lets an error escape (neither try body even throws; any throw
would be swallowed by the catch block regardless). -/
theorem c5_teardown_idempotent (w : World) (sid : SessionId)
    (hrm : sid ∉ w.rmFails) :
    cleanupSession sid (cleanupSession sid w) = cleanupSession sid w ∧
    sid ∉ (cleanupSession sid w).dirs ∧
    lookupId sid (cleanupSession sid w).reg = none ∧
    (cleanupTry sid w).2 = false ∧
    (cleanupTry sid (cleanupSession sid w)).2 = false := by
  refine ⟨cleanupSession_idem sid hrm, cleanupSession_not_dirs hrm,
    cleanupSession_lookup_self hrm, cleanupTry_noThrow hrm, ?_⟩
  apply cleanupTry_noThrow
  rw [cleanupSession_rmFails]
  exact hrm

/-- C5 witness: the statement at session "s" of `wBasic`. -/
theorem c5_witness :
    cleanupSession "s" (cleanupSession "s" wBasic) = cleanupSession "s" wBasic ∧
    "s" ∉ (cleanupSession "s" wBasic).dirs ∧
    lookupId "s" (cleanupSession "s" wBasic).reg = none ∧
    (cleanupTry "s" wBasic).2 = false ∧
    (cleanupTry "s" (cleanupSession "s" wBasic)).2 = false :=
  c5_teardown_idempotent wBasic "s" (by decide)

/-! ### Claim C6 -/

/-- C6: any registered session whose age at sweep time exceeds the
configured maximum (120 minutes) is fully torn down by the sweep —
handshake socket ended, storage directory removed, registry entry removed —
whatever its status (the hypothesis does not constrain it), provided the
filesystem removal does not raise. -/
theorem c6_expiry_sweep (w : World) (sid : SessionId) (r : SessionRecord)
    (now : Int) (hlook : lookupId sid w.reg = some r)
    (hage : (((now - r.createdAt : Int) : ℚ) / 60000) > 120)
    (hrm : sid ∉ w.rmFails) :
    lookupId sid (sweepOnce now w).reg = none ∧
    sid ∉ (sweepOnce now w).dirs ∧
    sid ∈ (sweepOnce now w).endedSocks := by
  have hold : tooOld now r.createdAt = true := by
    simp only [tooOld]
    exact decide_eq_true hage
  exact sweepFold_cleans now sid r (w.reg.map Prod.fst) w
    (lookupId_some_mem_keys hlook) hlook hold hrm

/-- C6 witness: session "s" of `wBasic` (status still `connecting`) swept
at time 7200001 ms, just past the 120-minute bound. -/
theorem c6_witness :
    lookupId "s" (sweepOnce 7200001 wBasic).reg = none ∧
    "s" ∉ (sweepOnce 7200001 wBasic).dirs ∧
    "s" ∈ (sweepOnce 7200001 wBasic).endedSocks :=
  c6_expiry_sweep wBasic "s" ⟨"p", .connecting, 0, none⟩ 7200001 (by decide)
    (by show ((7200001 - (0 : Int) : Int) : ℚ) / 60000 > 120; norm_num) (by decide)

/-! ### Lemmas about event delivery and whole-system steps -/

theorem statusOf_updateId_self (sid : SessionId) (f : SessionRecord → SessionRecord)
    (w : World) :
    statusOf sid { w with reg := updateId sid f w.reg } =
      (lookupId sid w.reg).map (fun r => (f r).status) := by
  simp only [statusOf]
  rw [lookupId_updateId_self]
  cases lookupId sid w.reg <;> rfl

theorem statusOf_updateId_ne {k sid : SessionId} (hk : k ≠ sid)
    (f : SessionRecord → SessionRecord) (w : World) :
    statusOf k { w with reg := updateId sid f w.reg } = statusOf k w := by
  simp only [statusOf]
  rw [lookupId_updateId_ne hk]

/-- The qr half of the listener never changes any session's status. -/
theorem qrStep_statusOf {sid' : SessionId} (sid : SessionId) {u : ConnUpdate}
    {w w' : World} (h : qrStep sid' u w = some w') :
    statusOf sid w' = statusOf sid w := by
  rcases hq : u.qr with _ | q
  · simp only [qrStep, hq, Option.some.injEq] at h
    rw [h]
  · rcases hl : lookupId sid' w.reg with _ | r
    · simp [qrStep, hq, hl] at h
    · simp only [qrStep, hq, hl, Option.some.injEq] at h
      subst h
      by_cases hk : sid = sid'
      · subst hk
        rw [statusOf_updateId_self]
        simp only [statusOf]
      · exact statusOf_updateId_ne hk _ w

/-- The connection half of the listener either leaves a session's status
alone or sets it to a terminal value. -/
theorem connStep_statusOf {sid' : SessionId} (sid : SessionId) {u : ConnUpdate}
    {w w' : World} (h : connStep sid' u w = some w') :
    statusOf sid w' = statusOf sid w ∨ statusOf sid w' = some .failed ∨
      statusOf sid w' = some .connected := by
  rcases hcon : u.connection with _ | c
  · left
    simp only [connStep, hcon, Option.some.injEq] at h
    rw [h]
  · cases c with
    | close =>
      cases hlo : u.loggedOut with
      | false =>
        left
        simp only [connStep, hcon, hlo, Bool.false_eq_true, if_false,
          Option.some.injEq] at h
        rw [h]
      | true =>
        rcases hl : lookupId sid' w.reg with _ | r
        · simp [connStep, hcon, hlo, hl] at h
        · simp only [connStep, hcon, hlo, if_true, hl, Option.some.injEq] at h
          subst h
          by_cases hk : sid = sid'
          · subst hk
            right; left
            rw [statusOf_updateId_self, hl]
            rfl
          · left
            exact statusOf_updateId_ne hk _ w
    | openC =>
      rcases hl : lookupId sid' w.reg with _ | r
      · simp [connStep, hcon, hl] at h
      · simp only [connStep, hcon, hl, Option.some.injEq] at h
        subst h
        by_cases hk : sid = sid'
        · subst hk
          right; right
          rw [statusOf_updateId_self, hl]
          rfl
        · left
          exact statusOf_updateId_ne hk _ w
    | otherC =>
      left
      simp only [connStep, hcon, Option.some.injEq] at h
      rw [h]

/-- A delivered connection.update never moves any session's status to
`connecting`. -/
theorem handleUpdate_neverConnecting {sid sid' : SessionId} {u : ConnUpdate}
    {w w' : World} (h : handleUpdate sid' u w = some w')
    (hn : statusOf sid w ≠ some .connecting) :
    statusOf sid w' ≠ some .connecting := by
  rcases hbind : qrStep sid' u w with _ | w1
  · rw [handleUpdate, hbind] at h
    exact Option.noConfusion h
  · rw [handleUpdate, hbind] at h
    have h2 : connStep sid' u w1 = some w' := h
    have h1 : statusOf sid w1 ≠ some .connecting := by
      rw [qrStep_statusOf sid hbind]
      exact hn
    rcases connStep_statusOf sid h2 with he | he | he
    · rw [he]; exact h1
    · rw [he]; decide
    · rw [he]; decide

theorem cleanupSession_neverConnecting {sid sid'' : SessionId} {w : World}
    (hn : statusOf sid w ≠ some .connecting) :
    statusOf sid (cleanupSession sid'' w) ≠ some .connecting := by
  intro hc
  rcases hl : lookupId sid (cleanupSession sid'' w).reg with _ | r
  · simp [statusOf, hl] at hc
  · simp only [statusOf, hl, Option.map_some'] at hc
    exact hn (by simp [statusOf, cleanupSession_lookup_of_some hl, hc])

theorem sweepStepF_neverConnecting {sid : SessionId} (now : Int) (acc : World)
    (k : SessionId) (hn : statusOf sid acc ≠ some .connecting) :
    statusOf sid (sweepStepF now acc k) ≠ some .connecting := by
  rcases hlk : lookupId k acc.reg with _ | rk
  · simpa [sweepStepF, hlk] using hn
  · by_cases ho : tooOld now rk.createdAt
    · simp only [sweepStepF, hlk, if_pos ho]
      exact cleanupSession_neverConnecting hn
    · simpa [sweepStepF, hlk, if_neg ho] using hn

theorem sweepOnce_neverConnecting {sid : SessionId} (now : Int) {w : World}
    (hn : statusOf sid w ≠ some .connecting) :
    statusOf sid (sweepOnce now w) ≠ some .connecting := by
  have hfold : ∀ (keys : List SessionId) (acc : World),
      statusOf sid acc ≠ some .connecting →
      statusOf sid (keys.foldl (sweepStepF now) acc) ≠ some .connecting := by
    intro keys
    induction keys with
    | nil => exact fun acc h => h
    | cons k t ih =>
      intro acc h
      rw [List.foldl_cons]
      exact ih _ (sweepStepF_neverConnecting now acc k h)
  exact hfold _ w hn

theorem createSession_lookup_ne {k sid : SessionId} (hk : k ≠ sid) (phone : String)
    (beh : AdapterBehavior) (now : Int) (w : World) :
    lookupId k (createSession sid phone beh now w).2.reg = lookupId k w.reg := by
  by_cases hp : phone = ""
  · simp [createSession, hp]
  · cases hb : beh.failBefore with
    | true => by_cases hd : sid ∈ w.dirs <;> simp [createSession, hp, hb, hd]
    | false =>
      rcases hpc : beh.pairingCode (stripNonDigits phone) with e | code <;>
        by_cases hd : sid ∈ w.dirs <;>
          simp [createSession, hp, hb, hd, hpc, lookupId_insertReg_ne hk]

theorem createSession_statusOf_ne {k sid : SessionId} (hk : k ≠ sid) (phone : String)
    (beh : AdapterBehavior) (now : Int) (w : World) :
    statusOf k (createSession sid phone beh now w).2 = statusOf k w := by
  simp only [statusOf]
  rw [createSession_lookup_ne hk]

theorem downloadCreds_world (sid : SessionId) (w : World) :
    (downloadCreds sid w).2.1 = w := by
  rcases hl : lookupId sid w.reg with _ | r
  · simp [downloadCreds, hl]
  · by_cases hs : r.status = .connected
    · rcases hc : lookupId sid w.creds with _ | body <;>
        simp [downloadCreds, hl, hs, hc]
    · simp [downloadCreds, hl, hs]

/-- No single step of the system — short of creating a session under the
very same id — moves a session's status to `connecting`. -/
theorem runStep_neverConnecting {sid : SessionId} (s : Step) {w : World}
    (hs : ∀ phone beh now, s ≠ Step.create sid phone beh now)
    (hn : statusOf sid w ≠ some .connecting) :
    statusOf sid (runStep s w) ≠ some .connecting := by
  cases s with
  | create sid' phone beh now =>
    have hk : sid ≠ sid' := by
      intro hc
      exact hs phone beh now (by rw [hc])
    simp only [runStep]
    rw [createSession_statusOf_ne hk]
    exact hn
  | event sid' u =>
    simp only [runStep]
    rcases hh : handleUpdate sid' u w with _ | w'
    · simpa using hn
    · simp only [Option.getD_some]
      exact handleUpdate_neverConnecting hh hn
  | cleanup sid'' =>
    simp only [runStep]
    exact cleanupSession_neverConnecting hn
  | sweep now =>
    simp only [runStep]
    exact sweepOnce_neverConnecting now hn
  | poll s => simpa [runStep] using hn
  | qrReq s => simpa [runStep] using hn
  | download s =>
    simp only [runStep]
    rw [downloadCreds_world]
    exact hn

theorem runSteps_cons (s : Step) (t : List Step) (w : World) :
    runSteps (s :: t) w = runSteps t (runStep s w) := rfl

theorem runSteps_neverConnecting {sid : SessionId} (steps : List Step) {w : World}
    (hfresh : ∀ phone beh now, Step.create sid phone beh now ∉ steps)
    (hn : statusOf sid w ≠ some .connecting) :
    statusOf sid (runSteps steps w) ≠ some .connecting := by
  induction steps generalizing w with
  | nil => exact hn
  | cons s t ih =>
    rw [runSteps_cons]
    refine ih (fun p b n hm => hfresh p b n (List.mem_cons_of_mem s hm)) ?_
    refine runStep_neverConnecting s ?_ hn
    intro p b n hc
    refine hfresh p b n ?_
    rw [← hc]
    exact List.mem_cons_self s t

/-! ### Claim C1 -/

/-- C1 counterexample: starting from the empty world, creating session "s"
for a valid phone number with an adapter whose `requestPairingCode` throws
(failure after the storage directory was allocated) yields the 500 error,
but the allocated directory is still present and the session record is
still registered — the claimed rollback and non-registration are false at
this input. -/
theorem c1_counterexample :
    (createSession "s" "15551234567" behPCfail 0 emptyW).1 = .serverError ∧
    "s" ∈ (createSession "s" "15551234567" behPCfail 0 emptyW).2.dirs ∧
    lookupId "s" (createSession "s" "15551234567" behPCfail 0 emptyW).2.reg =
      some ⟨"15551234567", .connecting, 0, none⟩ ∧
    ¬("s" ∉ (createSession "s" "15551234567" behPCfail 0 emptyW).2.dirs ∧
      lookupId "s" (createSession "s" "15551234567" behPCfail 0 emptyW).2.reg =
        none) := by
  decide

/-- C1 (amended): if the adapter's pairing-code request fails after the
storage directory was allocated, createSession propagates the failure to
the caller as the 500 error, but performs no rollback: the allocated
directory remains on disk, and the session record registered just before
the failing call remains in the registry with status `connecting`. -/
theorem c1_amended (sid : SessionId) (phone : String) (beh : AdapterBehavior)
    (now : Int) (w : World) (hp : phone ≠ "") (hb : beh.failBefore = false)
    (hpc : beh.pairingCode (stripNonDigits phone) = .error ()) :
    (createSession sid phone beh now w).1 = .serverError ∧
    sid ∈ (createSession sid phone beh now w).2.dirs ∧
    lookupId sid (createSession sid phone beh now w).2.reg =
      some ⟨phone, .connecting, now, none⟩ := by
  by_cases hd : sid ∈ w.dirs <;>
    simp [createSession, hp, hb, hpc, hd, lookupId_insertReg_self]

/-- C1 witness: the amended statement at a fresh id "t" over the empty
world. -/
theorem c1_witness :
    (createSession "t" "+123" behPCfail 0 emptyW).1 = .serverError ∧
    "t" ∈ (createSession "t" "+123" behPCfail 0 emptyW).2.dirs ∧
    lookupId "t" (createSession "t" "+123" behPCfail 0 emptyW).2.reg =
      some ⟨"+123", .connecting, 0, none⟩ :=
  c1_amended "t" "+123" behPCfail 0 emptyW (by decide) rfl rfl

/-! ### Claim C8 -/

/-- C8 counterexample: creating session "s" in a world where the storage
location "s" already exists succeeds with a pairing code — no StorageError
of any kind — and the pre-existing directory is silently reused (the dirs
list is unchanged), contradicting the claim that allocate fails when the
location already exists. -/
theorem c8_counterexample :
    (createSession "s" "123" behOk 0 ⟨[], ["s"], [], [], []⟩).1 =
      .ok "ABCD-EFGH" "s" ∧
    (createSession "s" "123" behOk 0 ⟨[], ["s"], [], [], []⟩).2.dirs = ["s"] := by
  decide

/-- C8 (amended): when the session's storage location already exists,
createSession silently skips the mkdir and reuses the pre-existing
directory (the set of directories is unchanged), and the call proceeds
normally — succeeding whenever the adapter does. -/
theorem c8_amended (sid : SessionId) (phone : String) (beh : AdapterBehavior)
    (now : Int) (w : World) (code : String) (hdir : sid ∈ w.dirs)
    (hp : phone ≠ "") (hb : beh.failBefore = false)
    (hpc : beh.pairingCode (stripNonDigits phone) = .ok code) :
    (createSession sid phone beh now w).2.dirs = w.dirs ∧
    (createSession sid phone beh now w).1 = .ok code sid := by
  simp [createSession, hp, hb, hpc, hdir]

/-- C8 witness: the amended statement at id "s" over `wDirOnly`, whose
directory "s" already exists. -/
theorem c8_witness :
    (createSession "s" "123" behOk 0 wDirOnly).2.dirs = wDirOnly.dirs ∧
    (createSession "s" "123" behOk 0 wDirOnly).1 = .ok "ABCD-EFGH" "s" :=
  c8_amended "s" "123" behOk 0 wDirOnly "ABCD-EFGH" (by decide) (by decide) rfl rfl

/-! ### Claim C9 -/

/-- C9 counterexample: for the known session "s" with no QR payload yet,
get-qr answers HTTP 404 ("QR code not available yet"), not a 409-equivalent
outcome — the same 404 status code the unknown id "t" receives, the two
responses differing only in their message. -/
theorem c9_counterexample :
    getQr "s" ⟨[("s", ⟨"p", .connecting, 0, none⟩)], ["s"], [], [], []⟩ =
      .err ⟨404, "QR code not available yet"⟩ ∧
    getQr "t" ⟨[("s", ⟨"p", .connecting, 0, none⟩)], ["s"], [], [], []⟩ =
      .err ⟨404, "Session not found"⟩ := by
  decide

/-- C9 (amended): a session known to the registry with no scannable code
yet receives an error response distinct from the unknown-session response,
but both are HTTP 404 — the not-yet-available outcome is distinguished only
by its message ("QR code not available yet" vs "Session not found"), not by
a 409 status. -/
theorem c9_amended (w : World) (sid miss : SessionId) (r : SessionRecord)
    (hlook : lookupId sid w.reg = some r) (hq : r.qr = none)
    (hm : lookupId miss w.reg = none) :
    getQr sid w = .err ⟨404, "QR code not available yet"⟩ ∧
    getQr miss w = .err ⟨404, "Session not found"⟩ ∧
    getQr sid w ≠ getQr miss w := by
  refine ⟨?_, ?_, ?_⟩
  · simp [getQr, hlook, hq]
  · simp [getQr, hm]
  · simp [getQr, hlook, hq, hm]

/-- C9 witness: the amended statement for the QR-less session "s" and the
unknown id "t" of `wBasic`. -/
theorem c9_witness :
    getQr "s" wBasic = .err ⟨404, "QR code not available yet"⟩ ∧
    getQr "t" wBasic = .err ⟨404, "Session not found"⟩ ∧
    getQr "s" wBasic ≠ getQr "t" wBasic :=
  c9_amended wBasic "s" "t" ⟨"p", .connecting, 0, none⟩ (by decide) rfl (by decide)

/-! ### Claim C2 -/

/-- C2 counterexample: deliver `opened` for session "s" (status becomes
`connected`), then deliver a `closed` event whose disconnect reason is
loggedOut: the listener sets the status to `failed` while the session still
exists — so a later event does change the status away from `connected`,
contradicting the claim. -/
theorem c2_counterexample :
    statusOf "s" (runStep (.event "s" ⟨some .openC, false, none⟩) wBasic) =
      some .connected ∧
    statusOf "s" (runStep (.event "s" ⟨some .close, true, none⟩)
      (runStep (.event "s" ⟨some .openC, false, none⟩) wBasic)) = some .failed ∧
    lookupId "s" (runStep (.event "s" ⟨some .close, true, none⟩)
      (runStep (.event "s" ⟨some .openC, false, none⟩) wBasic)).reg ≠ none := by
  decide

theorem qrStep_status {sid : SessionId} (u : ConnUpdate) {w : World}
    {r : SessionRecord} (h : lookupId sid w.reg = some r) :
    ∃ w' r', qrStep sid u w = some w' ∧ lookupId sid w'.reg = some r' ∧
      r'.status = r.status := by
  rcases hq : u.qr with _ | q
  · exact ⟨w, r, by simp [qrStep, hq], h, rfl⟩
  · refine ⟨{ w with reg := updateId sid (fun r0 => { r0 with qr := some q }) w.reg },
      { r with qr := some q }, ?_, ?_, rfl⟩
    · simp [qrStep, hq, h]
    · show lookupId sid (updateId sid _ w.reg) = _
      rw [lookupId_updateId_self, h]
      rfl

theorem connStep_connected {sid : SessionId} (u : ConnUpdate) {w : World}
    {r : SessionRecord} (h : lookupId sid w.reg = some r)
    (hc : r.status = .connected)
    (hnl : ¬(u.connection = some .close ∧ u.loggedOut = true)) :
    ∃ w' r', connStep sid u w = some w' ∧ lookupId sid w'.reg = some r' ∧
      r'.status = .connected := by
  rcases hcon : u.connection with _ | c
  · exact ⟨w, r, by simp [connStep, hcon], h, hc⟩
  · cases c with
    | close =>
      have hlo : u.loggedOut = false := by
        cases hl : u.loggedOut with
        | false => rfl
        | true => exact absurd ⟨hcon, hl⟩ hnl
      exact ⟨w, r, by simp [connStep, hcon, hlo], h, hc⟩
    | openC =>
      refine ⟨{ w with
          reg := updateId sid (fun r0 => { r0 with status := .connected }) w.reg },
        { r with status := .connected }, ?_, ?_, rfl⟩
      · simp [connStep, hcon, h]
      · show lookupId sid (updateId sid _ w.reg) = _
        rw [lookupId_updateId_self, h]
        rfl
    | otherC => exact ⟨w, r, by simp [connStep, hcon], h, hc⟩

/-- C2 (amended): once a session's status is `connected`, it stays
`connected` — both in the registry and through the check-status endpoint —
under every subsequent delivered event except a `closed` event whose
disconnect reason is loggedOut; that one event does move the status to
`failed` (see the counterexample), because the listener applies it without
checking the current status. -/
theorem c2_amended (w : World) (sid : SessionId) (r : SessionRecord)
    (u : ConnUpdate) (h : lookupId sid w.reg = some r)
    (hc : r.status = .connected)
    (hnl : ¬(u.connection = some .close ∧ u.loggedOut = true)) :
    statusOf sid (runStep (.event sid u) w) = some .connected ∧
    statusView sid (runStep (.event sid u) w) = some .connected := by
  obtain ⟨w1, r1, hq, hl1, hs1⟩ := qrStep_status u h
  obtain ⟨w2, r2, hcn, hl2, hs2⟩ := connStep_connected u hl1 (hs1.trans hc) hnl
  have hrun : runStep (.event sid u) w = w2 := by
    simp [runStep, handleUpdate, hq, hcn]
  rw [hrun]
  constructor
  · simp [statusOf, hl2, hs2]
  · simp [statusView, checkStatus, hl2, hs2]

/-- C2 witness: the amended statement on the connected session "s" of
`wConnected`, hit by a non-logout close that also carries a rotated QR. -/
theorem c2_witness :
    statusOf "s" (runStep (.event "s" ⟨some .close, false, some "Q1"⟩) wConnected) =
      some .connected ∧
    statusView "s" (runStep (.event "s" ⟨some .close, false, some "Q1"⟩) wConnected) =
      some .connected :=
  c2_amended wConnected "s" ⟨"p", .connected, 0, none⟩ ⟨some .close, false, some "Q1"⟩
    (by decide) rfl (by decide)

/-! ### Claim C7 -/

/-- C7: once a session's status is terminal (`connected` or `failed`), no
sequence of later steps — event deliveries, cleanups, sweeps, endpoint
calls, or creations under other (fresh) ids — ever takes it back to
`connecting`: the only assignment of `connecting` in the whole program is
the one made at session creation. -/
theorem c7_status_monotone (steps : List Step) (w : World) (sid : SessionId)
    (r : SessionRecord) (hlook : lookupId sid w.reg = some r)
    (hterm : r.status = .connected ∨ r.status = .failed)
    (hfresh : ∀ phone beh now, Step.create sid phone beh now ∉ steps) :
    statusOf sid (runSteps steps w) ≠ some .connecting := by
  apply runSteps_neverConnecting steps hfresh
  rcases hterm with h | h <;> simp [statusOf, hlook, h]

/-- C7 witness: the connected session "s" of `wConnected` subjected to a
loggedOut close: its status afterwards is not `connecting`. -/
theorem c7_witness :
    statusOf "s" (runSteps [Step.event "s" ⟨some .close, true, none⟩] wConnected) ≠
      some .connecting :=
  c7_status_monotone [Step.event "s" ⟨some .close, true, none⟩] wConnected "s"
    ⟨"p", .connected, 0, none⟩ (by decide) (Or.inl rfl)
    (fun p b n hm => by
      rw [List.mem_singleton] at hm
      exact Step.noConfusion hm)

/-! ### Claim C10 -/

/-- C10: the download handler never mutates the world — in particular a
call that does not succeed (unknown session, status not connected, or
credential artifact absent) leaves the registry and the storage state
exactly as they were — and the deferred teardown is scheduled exactly when
the result is the success case. -/
theorem c10_download_frame (sid : SessionId) (w : World) :
    (downloadCreds sid w).2.1 = w ∧
    (downloadCreds sid w).2.2 = isOk (downloadCreds sid w).1 := by
  rcases hl : lookupId sid w.reg with _ | r
  · simp [downloadCreds, hl, isOk]
  · by_cases hs : r.status = .connected
    · rcases hc : lookupId sid w.creds with _ | body
      · simp [downloadCreds, hl, hs, hc, isOk]
      · simp [downloadCreds, hl, hs, hc, isOk]
    · simp [downloadCreds, hl, hs, isOk]

end PairingApp
